import Mathlib

/-!
Verification of the go-mutesting mutation pipeline (main package,
`mutator/loop/range_break.go`) against its natural-language specification.

The Go code is shallowly embedded: the on-disk file system is a map from
paths to contents, external processes (diff, go test, the user command)
are represented by oracles recording their exit statuses, and fallible
operations return `Option`/`Except`.
-/

namespace GoMutesting

/-- The on-disk file system: a map from paths to file contents.
`none` means the path does not exist. -/
def FS : Type := String → Option String

/-- os.WriteFile: (over)writes `path` with `content`. -/
def writeFile (fs : FS) (path content : String) : FS :=
  fun p => if p = path then some content else fs p

/-- Removal of a path, used to model the source side of a rename. -/
def removePath (fs : FS) (path : String) : FS :=
  fun p => if p = path then none else fs p

/-- os.Rename: moves `src` onto `dst` (overwriting `dst`).
Fails (`none`) when `src` does not exist. -/
def osRename (fs : FS) (src dst : String) : Option FS :=
  match fs src with
  | none => none
  | some c => some (writeFile (removePath fs src) dst c)

/-- osutil.CopyFile: copies `src` over `dst`. Fails when `src` is absent. -/
def copyFile (fs : FS) (src dst : String) : Option FS :=
  match fs src with
  | none => none
  | some c => some (writeFile fs dst c)

/-- Oracles for the external processes run by `mutateExec` in internal mode:
the exit status of the `diff` command, the raw exit status of `go test`,
whether `go test` fails to start at the OS level (exec.Command error that is
not an ExitError), and whether the deferred restoring rename itself fails at
the OS level. -/
structure ExecEnv where
  diffExitCode : Int
  goTestExitCode : Int
  goTestStartFails : Bool
  restoreRenameFails : Bool

/-- Result of one `mutateExec` call: either a Go panic or a normal return
carrying the exit code handed back to `mutate`. -/
inductive ExecResult where
  | panicked : ExecResult
  | exitCode (code : Int) : ExecResult
deriving DecidableEq

/-- The internal-mode exit-status translation at the end of `mutateExec`:
go-test status 0 (tests passed) becomes 1, status 1 (tests failed)
becomes 0, and every other status (2 = did not compile, unknown) is
returned unchanged. -/
def translateGoTestCode (goTestExit : Int) : Int :=
  if goTestExit = 0 then 1 else if goTestExit = 1 then 0 else goTestExit

/-- The deferred `_ = os.Rename(file+".tmp", file)` at the end of
`mutateExec`: its error is discarded, so a failing rename (source missing,
or an OS-level failure given by the oracle) leaves the file system as is. -/
def runRestore (env : ExecEnv) (fs : FS) (file : String) : FS :=
  if env.restoreRenameFails then fs
  else
    match osRename fs (file ++ ".tmp") file with
    | none => fs
    | some fs2 => fs2

/-- Internal mode of `mutateExec`: run diff (panicking on an exit code other
than 0/1, before the restore is deferred), rename the original aside, copy
the mutant into its place, run `go test`, translate its status, and run the
deferred restore on every exit path reached after the defer statement.
The middle component observes the file system in which `go test` runs
(`none` when the swap was never reached). -/
def mutateExecInternal (env : ExecEnv) (fs : FS) (file mutationFile : String) :
    ExecResult × Option FS × FS :=
  if env.diffExitCode ≠ 0 ∧ env.diffExitCode ≠ 1 then
    (ExecResult.panicked, none, fs)
  else
    match osRename fs file (file ++ ".tmp") with
    | none => (ExecResult.panicked, none, runRestore env fs file)
    | some fs1 =>
      match copyFile fs1 mutationFile file with
      | none => (ExecResult.panicked, none, runRestore env fs1 file)
      | some fs2 =>
        if env.goTestStartFails then
          (ExecResult.panicked, some fs2, runRestore env fs2 file)
        else
          (ExecResult.exitCode (translateGoTestCode env.goTestExitCode),
            some fs2, runRestore env fs2 file)

theorem self_ne_append_tmp (s : String) : s ≠ s ++ ".tmp" := by
  intro h
  have h2 : s.length = (s ++ ".tmp").length := congrArg String.length h
  rw [String.length_append] at h2
  have h3 : (".tmp" : String).length = 4 := rfl
  omega

theorem append_tmp_ne_self (s : String) : s ++ ".tmp" ≠ s :=
  fun h => self_ne_append_tmp s h.symm

theorem writeFile_same (fs : FS) (p c : String) : writeFile fs p c p = some c := by
  simp [writeFile]

theorem writeFile_other (fs : FS) (p c q : String) (h : q ≠ p) :
    writeFile fs p c q = fs q := by
  simp [writeFile, h]

theorem removePath_other (fs : FS) (p q : String) (h : q ≠ p) :
    removePath fs p q = fs q := by
  simp [removePath, h]

theorem runRestore_restores (env : ExecEnv) (fs : FS) (file orig : String)
    (hok : env.restoreRenameFails = false)
    (htmp : fs (file ++ ".tmp") = some orig) :
    runRestore env fs file file = some orig := by
  unfold runRestore osRename
  rw [hok, htmp]
  simp [writeFile]

/-- C2: for every mutant executed in internal mode, the original source file
is renamed aside, the mutant is copied into its place for the test run, and
the original is restored before `mutateExec` returns on every exit path
reached after the restore is deferred, including panics, so that after the
mutant is processed the on-disk contents of the original file equal the
pre-run contents (assuming the restoring rename itself is not hit by an
OS-level failure). -/
theorem internal_exec_restores_original (env : ExecEnv) (fs : FS)
    (file mutationFile orig mutC : String)
    (hfile : fs file = some orig)
    (hm1 : mutationFile ≠ file)
    (hm2 : mutationFile ≠ file ++ ".tmp")
    (hok : env.restoreRenameFails = false) :
    (mutateExecInternal env fs file mutationFile).2.2 file = some orig ∧
    (fs mutationFile = some mutC →
      ∀ fsT, (mutateExecInternal env fs file mutationFile).2.1 = some fsT →
        fsT file = some mutC) := by
  unfold mutateExecInternal
  by_cases hd : env.diffExitCode ≠ 0 ∧ env.diffExitCode ≠ 1
  · rw [if_pos hd]
    exact ⟨hfile, fun _ _ h => by cases h⟩
  · rw [if_neg hd]
    have hrn : osRename fs file (file ++ ".tmp") =
        some (writeFile (removePath fs file) (file ++ ".tmp") orig) := by
      unfold osRename
      rw [hfile]
    rw [hrn]
    dsimp only
    have hfs1 : writeFile (removePath fs file) (file ++ ".tmp") orig mutationFile =
        fs mutationFile := by
      rw [writeFile_other _ _ _ _ hm2, removePath_other _ _ _ hm1]
    have htmp1 : writeFile (removePath fs file) (file ++ ".tmp") orig (file ++ ".tmp") =
        some orig := writeFile_same _ _ _
    cases hmf : fs mutationFile with
    | none =>
      have hcp : copyFile (writeFile (removePath fs file) (file ++ ".tmp") orig)
          mutationFile file = none := by
        unfold copyFile
        rw [hfs1, hmf]
      rw [hcp]
      refine ⟨runRestore_restores env _ file orig hok htmp1, ?_⟩
      intro hc
      cases hc
    | some c =>
      have hcp : copyFile (writeFile (removePath fs file) (file ++ ".tmp") orig)
          mutationFile file =
          some (writeFile (writeFile (removePath fs file) (file ++ ".tmp") orig) file c) := by
        unfold copyFile
        rw [hfs1, hmf]
      rw [hcp]
      dsimp only
      have htmp2 : writeFile (writeFile (removePath fs file) (file ++ ".tmp") orig) file c
          (file ++ ".tmp") = some orig := by
        rw [writeFile_other _ _ _ _ (append_tmp_ne_self file)]
        exact htmp1
      have hrest := runRestore_restores env
        (writeFile (writeFile (removePath fs file) (file ++ ".tmp") orig) file c)
        file orig hok htmp2
      have htest : ∀ fsT,
          writeFile (writeFile (removePath fs file) (file ++ ".tmp") orig) file c = fsT →
          fs mutationFile = some mutC → fsT file = some mutC := by
        intro fsT hft hmc
        rw [hmf] at hmc
        cases hmc
        rw [← hft]
        exact writeFile_same _ _ _
      by_cases hg : env.goTestStartFails
      · rw [if_pos hg]
        exact ⟨hrest, fun hmc fsT hft => htest fsT (by injection hft) (hmf.trans hmc)⟩
      · rw [if_neg hg]
        exact ⟨hrest, fun hmc fsT hft => htest fsT (by injection hft) (hmf.trans hmc)⟩

/-- Witness for C2 at a concrete file system with original file `a.go`
containing `orig` and a mutant file `m.go` containing `mut`. -/
theorem internal_exec_restores_original_witness :
    (fun p => if p = "a.go" then some "orig"
              else if p = "m.go" then some "mut" else none : FS) "a.go" = some "orig" ∧
    ("m.go" : String) ≠ "a.go" ∧
    ("m.go" : String) ≠ "a.go" ++ ".tmp" ∧
    (mutateExecInternal ⟨1, 0, false, false⟩
      (fun p => if p = "a.go" then some "orig"
                else if p = "m.go" then some "mut" else none) "a.go" "m.go").2.2 "a.go" =
      some "orig" :=
  ⟨by decide, by decide, by decide,
    (internal_exec_restores_original ⟨1, 0, false, false⟩
      (fun p => if p = "a.go" then some "orig"
                else if p = "m.go" then some "mut" else none)
      "a.go" "m.go" "orig" "mut" (by decide) (by decide) (by decide) rfl).1⟩

/-- Counterexample to C6: when the deferred restoring rename fails after the
test run, `mutateExec` neither panics nor reports anything: it returns the
translated exit code normally while the original file still holds the mutant
bytes, so the failure is silently ignored rather than treated as fatal. -/
theorem restore_failure_not_fatal_cex :
    (mutateExecInternal ⟨1, 0, false, true⟩
      (fun p => if p = "a.go" then some "orig"
                else if p = "m.go" then some "mut" else none) "a.go" "m.go").1 =
      ExecResult.exitCode 1 ∧
    (mutateExecInternal ⟨1, 0, false, true⟩
      (fun p => if p = "a.go" then some "orig"
                else if p = "m.go" then some "mut" else none) "a.go" "m.go").1 ≠
      ExecResult.panicked ∧
    (mutateExecInternal ⟨1, 0, false, true⟩
      (fun p => if p = "a.go" then some "orig"
                else if p = "m.go" then some "mut" else none) "a.go" "m.go").2.2 "a.go" =
      some "mut" := by
  refine ⟨?_, ?_, ?_⟩ <;> decide

/-- C6 (amended): if the deferred post-test restoration rename fails, the
error is discarded: `mutateExec` still returns the translated test exit code
as a normal (non-panicking) result and the original path keeps the mutant
contents; no failure is surfaced. -/
theorem restore_failure_is_ignored (env : ExecEnv) (fs : FS)
    (file mutationFile orig mutC : String)
    (hfile : fs file = some orig)
    (hmut : fs mutationFile = some mutC)
    (hm1 : mutationFile ≠ file)
    (hm2 : mutationFile ≠ file ++ ".tmp")
    (hdiff : env.diffExitCode = 0 ∨ env.diffExitCode = 1)
    (hstart : env.goTestStartFails = false)
    (hfail : env.restoreRenameFails = true) :
    (mutateExecInternal env fs file mutationFile).1 =
      ExecResult.exitCode (translateGoTestCode env.goTestExitCode) ∧
    (mutateExecInternal env fs file mutationFile).2.2 file = some mutC := by
  unfold mutateExecInternal
  have hd : ¬(env.diffExitCode ≠ 0 ∧ env.diffExitCode ≠ 1) := by
    rcases hdiff with h | h <;> simp [h]
  rw [if_neg hd]
  have hrn : osRename fs file (file ++ ".tmp") =
      some (writeFile (removePath fs file) (file ++ ".tmp") orig) := by
    unfold osRename
    rw [hfile]
  rw [hrn]
  dsimp only
  have hfs1 : writeFile (removePath fs file) (file ++ ".tmp") orig mutationFile =
      some mutC := by
    rw [writeFile_other _ _ _ _ hm2, removePath_other _ _ _ hm1, hmut]
  have hcp : copyFile (writeFile (removePath fs file) (file ++ ".tmp") orig)
      mutationFile file =
      some (writeFile (writeFile (removePath fs file) (file ++ ".tmp") orig) file mutC) := by
    unfold copyFile
    rw [hfs1]
  rw [hcp]
  dsimp only
  rw [if_neg (by rw [hstart]; exact Bool.false_ne_true)]
  have hrr : runRestore env
      (writeFile (writeFile (removePath fs file) (file ++ ".tmp") orig) file mutC) file =
      writeFile (writeFile (removePath fs file) (file ++ ".tmp") orig) file mutC := by
    unfold runRestore
    rw [hfail]
    rfl
  rw [hrr]
  exact ⟨rfl, writeFile_same _ _ _⟩

/-- Witness for the amended C6 at a concrete file system. -/
theorem restore_failure_is_ignored_witness :
    (mutateExecInternal ⟨0, 1, false, true⟩
      (fun p => if p = "a.go" then some "orig"
                else if p = "m.go" then some "mut" else none) "a.go" "m.go").1 =
      ExecResult.exitCode (translateGoTestCode 1) ∧
    (mutateExecInternal ⟨0, 1, false, true⟩
      (fun p => if p = "a.go" then some "orig"
                else if p = "m.go" then some "mut" else none) "a.go" "m.go").2.2 "a.go" =
      some "mut" :=
  restore_failure_is_ignored ⟨0, 1, false, true⟩
    (fun p => if p = "a.go" then some "orig"
              else if p = "m.go" then some "mut" else none)
    "a.go" "m.go" "orig" "mut" (by decide) (by decide) (by decide) (by decide)
    (Or.inl rfl) rfl rfl

/-- Modelled from the spec: one MutantRecord of `internal/models` (the
package itself is not under src/); the fields are exactly those the main
package reads and writes and those of the spec's report schema. -/
structure Mutant where
  mutatorName : String
  originalFilePath : String
  originalSourceCode : String
  mutatedSourceCode : String
  diff : String
  processOutput : String
deriving DecidableEq

/-- Modelled from the spec: the counters of `models.Stats` touched by the
classification switch in `mutate`. -/
structure Stats where
  killedCount : Nat
  escapedCount : Nat
  skippedCount : Nat
  duplicatedCount : Nat
  errorCount : Nat
deriving DecidableEq

/-- Modelled from the spec: the `models.Report` buckets and counters used by
`mutate`. -/
structure Report where
  killed : List Mutant
  escaped : List Mutant
  errored : List Mutant
  stats : Stats
deriving DecidableEq

/-- The classification switch at the end of the mutant loop in `mutate`:
exit code 0 appends to Killed with a PASS output, 1 appends to Escaped with
a FAIL output, 2 only increments SkippedCount, and every other code appends
to Errored with an UNKOWN output (spelling as in the source). -/
def classifyMutant (execExitCode : Int) (msg : String) (report : Report)
    (mutant : Mutant) : Report :=
  if execExitCode = 0 then
    { report with
      killed := report.killed ++ [{ mutant with processOutput := "PASS " ++ msg ++ "\n" }],
      stats := { report.stats with killedCount := report.stats.killedCount + 1 } }
  else if execExitCode = 1 then
    { report with
      escaped := report.escaped ++ [{ mutant with processOutput := "FAIL " ++ msg ++ "\n" }],
      stats := { report.stats with escapedCount := report.stats.escapedCount + 1 } }
  else if execExitCode = 2 then
    { report with
      stats := { report.stats with skippedCount := report.stats.skippedCount + 1 } }
  else
    { report with
      errored := report.errored ++
        [{ mutant with processOutput := "UNKOWN exit code for " ++ msg ++ "\n" }],
      stats := { report.stats with errorCount := report.stats.errorCount + 1 } }

/-- C1: for every executed mutant the classification follows the exit code
reaching `mutate`: 0 appends the mutant to Killed and increments
KilledCount, 1 appends to Escaped and increments EscapedCount, 2 only
increments SkippedCount, and every other code appends to Errored and
increments ErrorCount; in internal mode the raw go-test status `g` is first
translated, so tests passed (0) classifies as Escaped, tests failed (1) as
Killed, a compile failure (2) as Skipped, and any other status as Errored.
The equalities are on the whole report, so no other bucket or counter
changes. -/
theorem exit_code_classification (g c : Int) (msg : String) (r : Report) (m : Mutant) :
    (c = 0 → classifyMutant c msg r m =
      { r with
        killed := r.killed ++ [{ m with processOutput := "PASS " ++ msg ++ "\n" }],
        stats := { r.stats with killedCount := r.stats.killedCount + 1 } }) ∧
    (c = 1 → classifyMutant c msg r m =
      { r with
        escaped := r.escaped ++ [{ m with processOutput := "FAIL " ++ msg ++ "\n" }],
        stats := { r.stats with escapedCount := r.stats.escapedCount + 1 } }) ∧
    (c = 2 → classifyMutant c msg r m =
      { r with
        stats := { r.stats with skippedCount := r.stats.skippedCount + 1 } }) ∧
    (c ≠ 0 → c ≠ 1 → c ≠ 2 → classifyMutant c msg r m =
      { r with
        errored := r.errored ++
          [{ m with processOutput := "UNKOWN exit code for " ++ msg ++ "\n" }],
        stats := { r.stats with errorCount := r.stats.errorCount + 1 } }) ∧
    (g = 0 → classifyMutant (translateGoTestCode g) msg r m =
      { r with
        escaped := r.escaped ++ [{ m with processOutput := "FAIL " ++ msg ++ "\n" }],
        stats := { r.stats with escapedCount := r.stats.escapedCount + 1 } }) ∧
    (g = 1 → classifyMutant (translateGoTestCode g) msg r m =
      { r with
        killed := r.killed ++ [{ m with processOutput := "PASS " ++ msg ++ "\n" }],
        stats := { r.stats with killedCount := r.stats.killedCount + 1 } }) ∧
    (g = 2 → classifyMutant (translateGoTestCode g) msg r m =
      { r with
        stats := { r.stats with skippedCount := r.stats.skippedCount + 1 } }) ∧
    (g ≠ 0 → g ≠ 1 → g ≠ 2 → classifyMutant (translateGoTestCode g) msg r m =
      { r with
        errored := r.errored ++
          [{ m with processOutput := "UNKOWN exit code for " ++ msg ++ "\n" }],
        stats := { r.stats with errorCount := r.stats.errorCount + 1 } }) := by
  refine ⟨?_, ?_, ?_, ?_, ?_, ?_, ?_, ?_⟩
  · intro h
    simp [classifyMutant, h]
  · intro h
    simp [classifyMutant, h]
  · intro h
    simp [classifyMutant, h]
  · intro h0 h1 h2
    simp [classifyMutant, h0, h1, h2]
  · intro h
    simp [classifyMutant, translateGoTestCode, h]
  · intro h
    simp [classifyMutant, translateGoTestCode, h]
  · intro h
    simp [classifyMutant, translateGoTestCode, h]
  · intro h0 h1 h2
    simp [classifyMutant, translateGoTestCode, h0, h1, h2]

/-- An empty report used by concrete witnesses. -/
def emptyReport : Report := ⟨[], [], [], ⟨0, 0, 0, 0, 0⟩⟩

/-- A sample mutant record used by concrete witnesses. -/
def sampleMutant : Mutant :=
  ⟨"loop/range_break", "a.go", "orig", "mut", "", ""⟩

/-- Witness for C1: internal-mode tests-failed status 1 classifies as Killed,
and external exit code 7 classifies as Errored. -/
theorem exit_code_classification_witness :
    classifyMutant (translateGoTestCode 1) "msg" emptyReport sampleMutant =
      { emptyReport with
        killed := [{ sampleMutant with processOutput := "PASS msg\n" }],
        stats := { emptyReport.stats with killedCount := 1 } } ∧
    classifyMutant 7 "msg" emptyReport sampleMutant =
      { emptyReport with
        errored := [{ sampleMutant with processOutput := "UNKOWN exit code for msg\n" }],
        stats := { emptyReport.stats with errorCount := 1 } } := by
  obtain ⟨-, -, -, h3, -, h5, -, -⟩ :=
    exit_code_classification 1 7 "msg" emptyReport sampleMutant
  exact ⟨h5 rfl, h3 (by decide) (by decide) (by decide)⟩

/-- Embedding of `saveAST`. `hash` stands for the hex MD5 digest, `fmt` for
`format.Source` (gofmt), and `writeOk` for the success of `os.WriteFile`
(a failing write is modelled as leaving the file system unchanged).
`printed` is the result of `printer.Fprint` on the mutated tree: the bytes
that are fed to the hash. As in the source, the checksum is looked up in
the combined seen-set/blacklist, inserted on first sight, and only then are
the bytes formatted and written. -/
def saveAST (hash : String → String) (fmt : String → Except String String)
    (writeOk : Bool) (mutationBlackList : List String) (fs : FS) (file : String)
    (printed : Except String String) :
    Except String (String × Bool) × List String × FS :=
  match printed with
  | Except.error e => (Except.error e, mutationBlackList, fs)
  | Except.ok buf =>
    let checksum := hash buf
    if checksum ∈ mutationBlackList then
      (Except.ok (checksum, true), mutationBlackList, fs)
    else
      let blackList := checksum :: mutationBlackList
      match fmt buf with
      | Except.error e => (Except.error e, blackList, fs)
      | Except.ok src =>
        if writeOk then (Except.ok (checksum, false), blackList, writeFile fs file src)
        else (Except.error "write error", blackList, fs)

/-- The branch in `mutate` on the result of `saveAST`: an error prints
INTERNAL ERROR and drops the mutant, a duplicate only increments
DuplicatedCount, and otherwise the mutant is executed and classified
(abstracted by `execRun`, which is only reached in the third case). -/
def processSavedMutant (res : Except String (String × Bool)) (r : Report)
    (execRun : Report → Report) : Report :=
  match res with
  | Except.error _ => r
  | Except.ok (_, true) =>
    { r with stats := { r.stats with duplicatedCount := r.stats.duplicatedCount + 1 } }
  | Except.ok (_, false) => execRun r

/-- C3: when the fingerprint of the printed mutant is already in the
combined seen-set/blacklist (in particular when it came from a user
blacklist file), `saveAST` returns duplicate without touching the map or
the file system, and the caller only increments DuplicatedCount — the
mutant is neither executed (`execRun` is not applied) nor appended to any
bucket. Otherwise the fingerprint is inserted, the formatted bytes are
written to the temp path and the fingerprint is returned. -/
theorem saveAST_duplicate_discard (hash : String → String)
    (fmt : String → Except String String) (writeOk : Bool)
    (blackList : List String) (fs : FS) (file buf src : String)
    (r : Report) (execRun : Report → Report) :
    (hash buf ∈ blackList →
      saveAST hash fmt writeOk blackList fs file (Except.ok buf) =
        (Except.ok (hash buf, true), blackList, fs)) ∧
    (processSavedMutant (Except.ok (hash buf, true)) r execRun =
      { r with
        stats := { r.stats with duplicatedCount := r.stats.duplicatedCount + 1 } }) ∧
    (hash buf ∉ blackList → fmt buf = Except.ok src → writeOk = true →
      saveAST hash fmt writeOk blackList fs file (Except.ok buf) =
        (Except.ok (hash buf, false), hash buf :: blackList, writeFile fs file src)) := by
  refine ⟨?_, rfl, ?_⟩
  · intro hmem
    simp [saveAST, hmem]
  · intro hmem hfmt hw
    simp [saveAST, hmem, hfmt, hw]

/-- Witness for C3 with the identity as stand-in digest: a blacklisted
fingerprint is returned as a duplicate without a write, and the caller only
bumps DuplicatedCount. -/
theorem saveAST_duplicate_discard_witness :
    saveAST (fun s => s) (fun s => Except.ok s) true ["abc"] (fun _ => none) "f"
        (Except.ok "abc") =
      (Except.ok ("abc", true), ["abc"], (fun _ => none : FS)) ∧
    processSavedMutant (Except.ok ("abc", true)) emptyReport
        (fun rep => { rep with killed := [sampleMutant] }) =
      { emptyReport with
        stats := { emptyReport.stats with duplicatedCount := 1 } } := by
  obtain ⟨h1, h2, -⟩ :=
    saveAST_duplicate_discard (fun s => s) (fun s => Except.ok s) true ["abc"]
      (fun _ => none) "f" "abc" "abc" emptyReport
      (fun rep => { rep with killed := [sampleMutant] })
  exact ⟨h1 (by decide), h2⟩

/-- C10: `saveAST` inserts the fingerprint into the seen-set before
formatting and writing, so when formatting fails (or the write fails) the
error return still leaves the fingerprint recorded and the file system
untouched; a later mutant with the same printed serialization is then
classified as a duplicate, and the caller counts it as DuplicatedCount,
even though no file for that fingerprint was ever written. -/
theorem saveAST_records_fingerprint_before_write (hash : String → String)
    (fmt : String → Except String String) (blackList : List String)
    (fs fs2 : FS) (file file2 buf e src : String)
    (r : Report) (execRun : Report → Report)
    (hnew : hash buf ∉ blackList) :
    (fmt buf = Except.error e →
      saveAST hash fmt true blackList fs file (Except.ok buf) =
        (Except.error e, hash buf :: blackList, fs)) ∧
    (fmt buf = Except.ok src →
      saveAST hash fmt false blackList fs file (Except.ok buf) =
        (Except.error "write error", hash buf :: blackList, fs)) ∧
    (saveAST hash fmt true (hash buf :: blackList) fs2 file2 (Except.ok buf)).1 =
      Except.ok (hash buf, true) ∧
    processSavedMutant
        ((saveAST hash fmt true (hash buf :: blackList) fs2 file2 (Except.ok buf)).1)
        r execRun =
      { r with
        stats := { r.stats with duplicatedCount := r.stats.duplicatedCount + 1 } } := by
  have hdup : (saveAST hash fmt true (hash buf :: blackList) fs2 file2
      (Except.ok buf)).1 = Except.ok (hash buf, true) := by
    simp [saveAST]
  refine ⟨?_, ?_, hdup, ?_⟩
  · intro hfmt
    simp [saveAST, hnew, hfmt]
  · intro hfmt
    simp [saveAST, hnew, hfmt]
  · rw [hdup]
    rfl

/-- Witness for C10: a failing format records the fingerprint, and the same
printed bytes are afterwards reported as a duplicate. -/
theorem saveAST_records_fingerprint_before_write_witness :
    saveAST (fun s => s) (fun _ => Except.error "fmt") true [] (fun _ => none) "f"
        (Except.ok "abc") =
      (Except.error "fmt", ["abc"], (fun _ => none : FS)) ∧
    (saveAST (fun s => s) (fun _ => Except.error "fmt") true ["abc"] (fun _ => none)
        "g" (Except.ok "abc")).1 = Except.ok ("abc", true) := by
  obtain ⟨h1, -, h3, -⟩ :=
    saveAST_records_fingerprint_before_write (fun s => s)
      (fun _ => Except.error "fmt") [] (fun _ => none) (fun _ => none) "f" "g"
      "abc" "fmt" "src" emptyReport (fun rep => rep) (by decide)
  exact ⟨h1 rfl, h3⟩

/-- Counterexample to C5: the fingerprint is computed over the printed bytes
before formatting, while the file receives the formatted bytes. With the
identity digest and a trimming formatter standing in for gofmt, the printed
input with a trailing blank is hashed as is, but the written file holds the
trimmed bytes: the hashed bytes are not the written bytes, and the two
saved files written from the distinct printed inputs hold identical bytes
under distinct fingerprints. -/
theorem fingerprint_not_over_written_bytes_cex :
    (saveAST (fun s => s) (fun s => Except.ok (if s = "a " then "a" else s)) true []
        (fun _ => none) "f" (Except.ok "a ")).1 = Except.ok ("a ", false) ∧
    (saveAST (fun s => s) (fun s => Except.ok (if s = "a " then "a" else s)) true []
        (fun _ => none) "f" (Except.ok "a ")).2.2 "f" = some "a" ∧
    (saveAST (fun s => s) (fun s => Except.ok (if s = "a " then "a" else s)) true []
        (fun _ => none) "g" (Except.ok "a")).2.2 "g" = some "a" ∧
    (saveAST (fun s => s) (fun s => Except.ok (if s = "a " then "a" else s)) true []
        (fun _ => none) "g" (Except.ok "a")).1 = Except.ok ("a", false) ∧
    ("a " : String) ≠ "a" := by
  exact ⟨rfl, rfl, rfl, rfl, by decide⟩

/-- C5 (amended): the fingerprint returned by `saveAST` is the digest of the
pretty-printed bytes before formatting, and the temp file receives the
formatted (`format.Source`) bytes; hence mutants with identical pre-format
serialization always get identical fingerprints and identical written
files, but the hashed bytes need not equal the written bytes. -/
theorem saveAST_fingerprint_over_preformat_bytes (hash : String → String)
    (fmt : String → Except String String) (blackList : List String)
    (fs fs2 : FS) (file file2 buf src : String)
    (hnew : hash buf ∉ blackList) (hfmt : fmt buf = Except.ok src) :
    (saveAST hash fmt true blackList fs file (Except.ok buf)).1 =
      Except.ok (hash buf, false) ∧
    (saveAST hash fmt true blackList fs file (Except.ok buf)).2.2 file = some src ∧
    (saveAST hash fmt true blackList fs2 file2 (Except.ok buf)).1 =
      Except.ok (hash buf, false) ∧
    (saveAST hash fmt true blackList fs2 file2 (Except.ok buf)).2.2 file2 = some src := by
  refine ⟨?_, ?_, ?_, ?_⟩ <;> simp [saveAST, hnew, hfmt, writeFile]

/-- Witness for the amended C5: the digest input is the pre-format buffer
and the written bytes are the formatted ones. -/
theorem saveAST_fingerprint_over_preformat_bytes_witness :
    (saveAST (fun s => s) (fun s => Except.ok (if s = "b " then "b" else s)) true []
        (fun _ => none) "f" (Except.ok "b ")).1 = Except.ok ("b ", false) ∧
    (saveAST (fun s => s) (fun s => Except.ok (if s = "b " then "b" else s)) true []
        (fun _ => none) "f" (Except.ok "b ")).2.2 "f" = some "b" := by
  obtain ⟨h1, h2, -, -⟩ :=
    saveAST_fingerprint_over_preformat_bytes (fun s => s)
      (fun s => Except.ok (if s = "b " then "b" else s)) [] (fun _ => none)
      (fun _ => none) "f" "g" "b " "b" (by decide) rfl
  exact ⟨h1, h2⟩

/-- Go exit code `returnError` of the main command (the fourth iota value). -/
def returnError : Int := 3

/-- The blacklist-reading loop body in `mainCmd`: lines are processed in
order, empty lines are skipped, a line whose length is not 32 aborts with
the quoted message of `exitError`, and every other line is added to the
seen-set. -/
def processBlacklistLines (lines : List String) (m : List String) :
    Except String (List String) :=
  match lines with
  | [] => Except.ok m
  | line :: rest =>
    if line = "" then processBlacklistLines rest m
    else if line.length ≠ 32 then
      Except.error ("\"" ++ line ++ "\" is not a MD5 checksum")
    else processBlacklistLines rest (line :: m)

/-- The loop over all `--blacklist` files in `mainCmd`; each file is given
as its newline-split lines. The first bad line makes `mainCmd` return
`returnError` before any mutator runs. -/
def readBlacklistFiles (files : List (List String)) (m : List String) :
    Except Int (List String) :=
  match files with
  | [] => Except.ok m
  | lines :: rest =>
    match processBlacklistLines lines m with
    | Except.error _ => Except.error returnError
    | Except.ok m2 => readBlacklistFiles rest m2

/-- Modelled from the spec's words: a 32-hex-character MD5 fingerprint. -/
def isHex32 (s : String) : Bool :=
  s.length == 32 &&
    s.data.all (fun c =>
      c.isDigit || ('a' ≤ c && c ≤ 'f') || ('A' ≤ c && c ≤ 'F'))

/-- Counterexample to C7: a non-empty line of 32 characters that are not hex
digits is not rejected — the code only checks the length, so the line is
accepted and added to the seen-set instead of being reported as an input
error. -/
theorem blacklist_accepts_non_hex_line_cex :
    processBlacklistLines ["zzzzzzzzzzzzzzzzzzzzzzzzzzzzzzzz"] [] =
      Except.ok ["zzzzzzzzzzzzzzzzzzzzzzzzzzzzzzzz"] ∧
    isHex32 "zzzzzzzzzzzzzzzzzzzzzzzzzzzzzzzz" = false ∧
    ("zzzzzzzzzzzzzzzzzzzzzzzzzzzzzzzz" : String) ≠ "" := by
  exact ⟨rfl, by decide, by decide⟩

/-- C7 (amended): when reading blacklist files, every empty line is skipped;
every non-empty line whose length differs from 32 is an input error that is
reported and makes `mainCmd` return the error exit code before any mutation
runs; and every line of length exactly 32 — whether or not its characters
are hex digits — is added to the seen-set. -/
theorem blacklist_line_processing (line : String) (rest m : List String)
    (contents : List (List String)) :
    (line = "" → processBlacklistLines (line :: rest) m =
      processBlacklistLines rest m) ∧
    (line ≠ "" → line.length ≠ 32 → processBlacklistLines (line :: rest) m =
      Except.error ("\"" ++ line ++ "\" is not a MD5 checksum")) ∧
    (line ≠ "" → line.length = 32 → processBlacklistLines (line :: rest) m =
      processBlacklistLines rest (line :: m)) ∧
    (∀ lines, processBlacklistLines lines m = Except.error
        ("\"" ++ line ++ "\" is not a MD5 checksum") →
      readBlacklistFiles (lines :: contents) m = Except.error returnError) := by
  refine ⟨?_, ?_, ?_, ?_⟩
  · intro h
    simp [processBlacklistLines, h]
  · intro h hl
    simp [processBlacklistLines, h, hl]
  · intro h hl
    simp [processBlacklistLines, h, hl]
  · intro lines hc
    simp [readBlacklistFiles, hc]

/-- Witness for the amended C7: a short line is rejected with the error exit
code, an empty line is skipped, and a 32-character line is inserted. -/
theorem blacklist_line_processing_witness :
    processBlacklistLines ["abc"] [] =
      Except.error "\"abc\" is not a MD5 checksum" ∧
    processBlacklistLines ["", "abc"] [] =
      processBlacklistLines ["abc"] [] ∧
    processBlacklistLines ["zzzzzzzzzzzzzzzzzzzzzzzzzzzzzzzz", "abc"] [] =
      processBlacklistLines ["abc"] ["zzzzzzzzzzzzzzzzzzzzzzzzzzzzzzzz"] ∧
    readBlacklistFiles [["abc"]] [] = Except.error returnError := by
  obtain ⟨-, h2, -, h4⟩ := blacklist_line_processing "abc" [] ([] : List String) []
  obtain ⟨h1, -, -, -⟩ := blacklist_line_processing "" ["abc"] ([] : List String) []
  obtain ⟨-, -, h3, -⟩ :=
    blacklist_line_processing "zzzzzzzzzzzzzzzzzzzzzzzzzzzzzzzz" ["abc"]
      ([] : List String) []
  exact ⟨h2 (by decide) (by decide), h1 rfl, h3 (by decide) (by decide),
    h4 ["abc"] (h2 (by decide) (by decide))⟩

/-- strings.HasPrefix on character lists (mutator names are ASCII, so Go's
byte comparison and the character comparison agree). -/
def startsWithChars : List Char → List Char → Bool
  | _, [] => true
  | [], _ :: _ => false
  | c :: cs, p :: ps => c == p && startsWithChars cs ps

/-- strings.HasPrefix. -/
def strStartsWith (s pre : String) : Bool :=
  startsWithChars s.data pre.data

/-- strings.HasSuffix. -/
def strEndsWith (s suf : String) : Bool :=
  startsWithChars s.data.reverse suf.data.reverse

/-- The Go slice `s[:n]`. -/
def strTake (s : String) (n : Nat) : String :=
  String.mk (s.data.take n)

/-- One disable argument matched against one registered mutator name, as in
the `MUTATOR` loop of `mainCmd`: an argument ending in `*` compares the
name against the argument with its last two bytes sliced away
(`d[:len(d)-2]`), which panics (`Except.error`) when the argument is the
single character `*`; a non-glob argument must equal the name exactly. -/
def disableMatches (d name : String) : Except Unit Bool :=
  if strEndsWith d "*" then
    if d.length < 2 then Except.error ()
    else Except.ok (strStartsWith name (strTake d (d.length - 2)))
  else Except.ok (name == d)

/-- Whether any disable argument excludes the name (the inner loop with
`continue MUTATOR`). -/
def isDisabled (disables : List String) (name : String) : Except Unit Bool :=
  match disables with
  | [] => Except.ok false
  | d :: rest =>
    match disableMatches d name with
    | Except.error e => Except.error e
    | Except.ok true => Except.ok true
    | Except.ok false => isDisabled rest name

/-- The enabled-mutator selection loop of `mainCmd` over the registered
names, in order. -/
def enabledMutators (disables : List String) (names : List String) :
    Except Unit (List String) :=
  match names with
  | [] => Except.ok []
  | n :: rest =>
    match isDisabled disables n with
    | Except.error e => Except.error e
    | Except.ok true => enabledMutators disables rest
    | Except.ok false =>
      match enabledMutators disables rest with
      | Except.error e => Except.error e
      | Except.ok ns => Except.ok (n :: ns)

/-- The boolean match the code actually computes for arguments that do not
panic: glob arguments compare against the argument with its last two
characters removed. -/
def disableMatchesFn (d name : String) : Bool :=
  if strEndsWith d "*" then strStartsWith name (strTake d (d.length - 2))
  else name == d

theorem isDisabled_eq_any (disables : List String) (name : String)
    (h : ∀ d ∈ disables, strEndsWith d "*" = true → 2 ≤ d.length) :
    isDisabled disables name =
      Except.ok (disables.any (fun d => disableMatchesFn d name)) := by
  induction disables with
  | nil => rfl
  | cons d rest ih =>
    have hd : disableMatches d name = Except.ok (disableMatchesFn d name) := by
      unfold disableMatches disableMatchesFn
      by_cases hg : strEndsWith d "*"
      · have hlen := h d (List.mem_cons_self d rest) hg
        rw [if_pos hg, if_pos hg, if_neg (by omega)]
      · rw [if_neg hg, if_neg hg]
    have ih2 := ih (fun x hx => h x (List.mem_cons_of_mem d hx))
    unfold isDisabled
    rw [hd]
    cases hv : disableMatchesFn d name with
    | true => simp [hv]
    | false => simp [hv, ih2]

/-- Counterexample to C9: the code strips the last TWO characters of a glob
argument, not just the trailing `*`. With the disable argument `b*` the
compared prefix is the empty string, so the mutator `arithmetic/base` —
whose name does not start with `b` — is excluded as well, leaving no
enabled mutator at all. -/
theorem disable_glob_over_strips_cex :
    enabledMutators ["b*"] ["arithmetic/base", "branch/case"] = Except.ok [] ∧
    strStartsWith "arithmetic/base" "b" = false := by
  exact ⟨rfl, by decide⟩

/-- C9 (amended): a disable argument not ending in `*` excludes exactly the
mutator whose registered name equals it, and an argument ending in `*`
excludes exactly those mutators whose names start with the argument with
its trailing TWO characters removed (a bare `*` argument panics); no other
mutator is removed from the enabled list. -/
theorem disable_glob_semantics (disables names : List String)
    (h : ∀ d ∈ disables, strEndsWith d "*" = true → 2 ≤ d.length) :
    enabledMutators disables names =
      Except.ok (names.filter
        (fun n => !(disables.any (fun d => disableMatchesFn d n)))) := by
  induction names with
  | nil => rfl
  | cons n rest ih =>
    unfold enabledMutators
    rw [isDisabled_eq_any disables n h]
    cases hv : disables.any (fun d => disableMatchesFn d n) with
    | true => simp [hv, List.filter_cons, ih]
    | false => simp [hv, List.filter_cons, ih]

/-- Witness for the amended C9: `loop/*` (two trailing characters `/*`
removed leaves the prefix `loop`) excludes `loop/break` but keeps
`branch/case`. -/
theorem disable_glob_semantics_witness :
    enabledMutators ["loop/*"] ["branch/case", "loop/break"] =
      Except.ok (["branch/case", "loop/break"].filter
        (fun n => !((["loop/*"] : List String).any
          (fun d => disableMatchesFn d n)))) ∧
    enabledMutators ["loop/*"] ["branch/case", "loop/break"] =
      Except.ok ["branch/case"] := by
  have h := disable_glob_semantics ["loop/*"] ["branch/case", "loop/break"]
    (by
      intro d hd hg
      have hd2 : d = "loop/*" := List.mem_singleton.mp hd
      subst hd2
      decide)
  refine ⟨h, h.trans ?_⟩
  rfl

/-- The token of an `ast.BranchStmt` (`token.BREAK`, `token.CONTINUE`). -/
inductive Tok where
  | breakT : Tok
  | continueT : Tok
deriving DecidableEq

/-- A fragment of the Go statement AST. A `BlockStmt` is represented by its
statement list; `exprStmt` stands for any statement the loop mutators treat
opaquely, carrying its source text. -/
inductive Stmt where
  | branchStmt (tok : Tok) : Stmt
  | rangeStmt (body : List Stmt) : Stmt
  | forStmt (body : List Stmt) : Stmt
  | exprStmt (code : String) : Stmt

/-- An `ast.Node` handed to a mutation operator: a statement, or one of the
other node kinds (expressions, declarations) on which the type assertion
`node.(*ast.RangeStmt)` fails. -/
inductive Node where
  | stmtNode (s : Stmt) : Node
  | exprNode (code : String) : Node
  | declNode (name : String) (body : List Stmt) : Node

/-- `mutator.Mutation`: the Change and Reset thunks. The Go thunks mutate
the captured range node in place; here they are state transformers on that
node. -/
structure Mutation where
  change : Stmt → Stmt
  reset : Stmt → Stmt

/-- The assignment `n.Body = b` to the captured range statement: it
overwrites the body whatever the current body is, and is a no-op on any
other node shape. -/
def setRangeBody (s : Stmt) (b : List Stmt) : Stmt :=
  match s with
  | Stmt.rangeStmt _ => Stmt.rangeStmt b
  | s => s

/-- MutatorLoopRangeBreak: on a range statement it proposes exactly one
mutation whose Change installs a new block consisting of an unconditional
break followed by all original body statements in order, and whose Reset
reinstates the old body; on every other node it returns the empty list. -/
def MutatorLoopRangeBreak (node : Node) : List Mutation :=
  match node with
  | Node.stmtNode (Stmt.rangeStmt body) =>
    let oldBody := body
    let newBody := Stmt.branchStmt Tok.breakT :: body
    [{ change := fun s => setRangeBody s newBody,
       reset := fun s => setRangeBody s oldBody }]
  | _ => []

mutual

/-- Canonical serialization of one statement (`go/printer` is an external
collaborator; any injective printer represents it). -/
def serializeStmt : Stmt → String
  | Stmt.branchStmt Tok.breakT => "break"
  | Stmt.branchStmt Tok.continueT => "continue"
  | Stmt.rangeStmt body => "for range xs \x7b " ++ serializeStmts body ++ "\x7d"
  | Stmt.forStmt body => "for \x7b " ++ serializeStmts body ++ "\x7d"
  | Stmt.exprStmt code => code

/-- Canonical serialization of a statement list. -/
def serializeStmts : List Stmt → String
  | [] => ""
  | s :: rest => serializeStmt s ++ "; " ++ serializeStmts rest

end

/-- C4: for the mutation proposed by MutatorLoopRangeBreak on a node,
invoking Reset after Change restores the node — hence a tree containing it —
to a state whose canonical serialization is byte-identical to the
serialization before Change, and Change after Reset-after-Change reproduces
the mutated state identically. -/
theorem rangeBreak_apply_revert_roundtrip (s : Stmt) (mu : Mutation)
    (h : MutatorLoopRangeBreak (Node.stmtNode s) = [mu]) :
    serializeStmt (mu.reset (mu.change s)) = serializeStmt s ∧
    mu.reset (mu.change s) = s ∧
    mu.change (mu.reset (mu.change s)) = mu.change s := by
  cases s with
  | rangeStmt body =>
    simp only [MutatorLoopRangeBreak, List.cons.injEq, and_true] at h
    subst h
    refine ⟨rfl, rfl, rfl⟩
  | branchStmt t => cases h
  | forStmt body => cases h
  | exprStmt code => cases h

/-- Witness for C4 on a concrete one-statement range loop. -/
theorem rangeBreak_apply_revert_roundtrip_witness :
    serializeStmt
        ((Mutation.mk
            (fun s => setRangeBody s
              (Stmt.branchStmt Tok.breakT :: [Stmt.exprStmt "sum = sum + v"]))
            (fun s => setRangeBody s [Stmt.exprStmt "sum = sum + v"])).reset
          ((Mutation.mk
            (fun s => setRangeBody s
              (Stmt.branchStmt Tok.breakT :: [Stmt.exprStmt "sum = sum + v"]))
            (fun s => setRangeBody s [Stmt.exprStmt "sum = sum + v"])).change
            (Stmt.rangeStmt [Stmt.exprStmt "sum = sum + v"]))) =
      serializeStmt (Stmt.rangeStmt [Stmt.exprStmt "sum = sum + v"]) ∧
    (Mutation.mk
        (fun s => setRangeBody s
          (Stmt.branchStmt Tok.breakT :: [Stmt.exprStmt "sum = sum + v"]))
        (fun s => setRangeBody s [Stmt.exprStmt "sum = sum + v"])).reset
      ((Mutation.mk
        (fun s => setRangeBody s
          (Stmt.branchStmt Tok.breakT :: [Stmt.exprStmt "sum = sum + v"]))
        (fun s => setRangeBody s [Stmt.exprStmt "sum = sum + v"])).change
        (Stmt.rangeStmt [Stmt.exprStmt "sum = sum + v"])) =
      Stmt.rangeStmt [Stmt.exprStmt "sum = sum + v"] := by
  have h := rangeBreak_apply_revert_roundtrip
    (Stmt.rangeStmt [Stmt.exprStmt "sum = sum + v"])
    (Mutation.mk
      (fun s => setRangeBody s
        (Stmt.branchStmt Tok.breakT :: [Stmt.exprStmt "sum = sum + v"]))
      (fun s => setRangeBody s [Stmt.exprStmt "sum = sum + v"]))
    rfl
  exact ⟨h.1, h.2.1⟩

mutual

/-- Modelled from the spec: the depth-first mutation walker
(`MutateWalk`, not under src/) hands every node to the operator; this
counts the mutations MutatorLoopRangeBreak proposes over one statement and
its children. -/
def countStmt : Stmt → Nat
  | Stmt.rangeStmt body =>
    (MutatorLoopRangeBreak (Node.stmtNode (Stmt.rangeStmt body))).length +
      countStmts body
  | Stmt.forStmt body =>
    (MutatorLoopRangeBreak (Node.stmtNode (Stmt.forStmt body))).length +
      countStmts body
  | s => (MutatorLoopRangeBreak (Node.stmtNode s)).length

/-- Modelled from the spec: the walker's traversal of a statement list. -/
def countStmts : List Stmt → Nat
  | [] => 0
  | s :: rest => countStmt s + countStmts rest

end

/-- A source file with exactly two range loops. -/
def twoRangeLoopFile : List Stmt :=
  [Stmt.rangeStmt [Stmt.exprStmt "sum = sum + v"],
   Stmt.exprStmt "total = 0",
   Stmt.rangeStmt [Stmt.exprStmt "count = count + 1"]]

/-- C8: MutatorLoopRangeBreak returns exactly one mutation on a range
statement and the empty list on every other node kind; the mutation's
Change replaces the loop body with a block whose first statement is an
unconditional break followed by all original body statements in order, and
its Reset reinstates the original body; consequently walking a file with
two range loops proposes exactly two mutants. -/
theorem rangeBreak_mutation_shape (body fb : List Stmt) (t : Tok)
    (code nm : String) :
    (MutatorLoopRangeBreak (Node.stmtNode (Stmt.rangeStmt body))).length = 1 ∧
    (∀ mu, mu ∈ MutatorLoopRangeBreak (Node.stmtNode (Stmt.rangeStmt body)) →
      mu.change (Stmt.rangeStmt body) =
        Stmt.rangeStmt (Stmt.branchStmt Tok.breakT :: body) ∧
      mu.reset (mu.change (Stmt.rangeStmt body)) = Stmt.rangeStmt body) ∧
    MutatorLoopRangeBreak (Node.stmtNode (Stmt.branchStmt t)) = [] ∧
    MutatorLoopRangeBreak (Node.stmtNode (Stmt.forStmt fb)) = [] ∧
    MutatorLoopRangeBreak (Node.stmtNode (Stmt.exprStmt code)) = [] ∧
    MutatorLoopRangeBreak (Node.exprNode code) = [] ∧
    MutatorLoopRangeBreak (Node.declNode nm fb) = [] ∧
    countStmts twoRangeLoopFile = 2 := by
  refine ⟨rfl, ?_, rfl, rfl, rfl, rfl, rfl, ?_⟩
  · intro mu hmu
    have hm : mu = Mutation.mk
        (fun s => setRangeBody s (Stmt.branchStmt Tok.breakT :: body))
        (fun s => setRangeBody s body) := by
      simpa [MutatorLoopRangeBreak] using hmu
    subst hm
    exact ⟨rfl, rfl⟩
  · simp [twoRangeLoopFile, countStmts, countStmt, MutatorLoopRangeBreak]

/-- Witness for C8: the single mutation on a concrete range loop prepends a
break, and the two-loop file yields two mutants. -/
theorem rangeBreak_mutation_shape_witness :
    (MutatorLoopRangeBreak
      (Node.stmtNode (Stmt.rangeStmt [Stmt.exprStmt "sum = sum + v"]))).length = 1 ∧
    (Mutation.mk
        (fun s => setRangeBody s
          (Stmt.branchStmt Tok.breakT :: [Stmt.exprStmt "sum = sum + v"]))
        (fun s => setRangeBody s [Stmt.exprStmt "sum = sum + v"])).change
      (Stmt.rangeStmt [Stmt.exprStmt "sum = sum + v"]) =
      Stmt.rangeStmt
        (Stmt.branchStmt Tok.breakT :: [Stmt.exprStmt "sum = sum + v"]) ∧
    countStmts twoRangeLoopFile = 2 := by
  obtain ⟨h1, h2, -, -, -, -, -, h8⟩ :=
    rangeBreak_mutation_shape [Stmt.exprStmt "sum = sum + v"] [] Tok.breakT "" ""
  refine ⟨h1, ?_, h8⟩
  exact (h2 (Mutation.mk
    (fun s => setRangeBody s
      (Stmt.branchStmt Tok.breakT :: [Stmt.exprStmt "sum = sum + v"]))
    (fun s => setRangeBody s [Stmt.exprStmt "sum = sum + v"]))
    (List.mem_singleton.mpr rfl)).1

end GoMutesting
